import Mathlib

/-!
Verification development for the TDS solver repository.

The definitions below are shallow embeddings of the Python source files
`code_question_handlers.py`, `model_manager.py` and `code_executor.py`:
pure computations become Lean functions, Python exceptions become
`Except`/`Option` results, and the filesystem side effects of the code
executor are threaded through an explicit state record.  The theorems at
the end of the file settle the specification claims about these
functions.
-/

namespace TDS

/-! ## Shared character/string utilities (Python semantics on ASCII text) -/

/-- The whitespace characters removed by Python's `str.strip()` (ASCII part). -/
def isPySpace (c : Char) : Bool :=
  c = ' ' || c = '\t' || c = '\n' || c = '\r' || c = '\x0b' || c = '\x0c'

/-- Python `str.strip()`: drop leading and trailing whitespace. -/
def pyStrip (l : List Char) : List Char :=
  ((l.dropWhile isPySpace).reverse.dropWhile isPySpace).reverse

/-- Python `str.lower()` (ASCII case folding). -/
def lowerL (l : List Char) : List Char := l.map Char.toLower

/-- Python `needle in hay` substring test. -/
def containsSub (hay needle : List Char) : Bool :=
  if needle.isPrefixOf hay then true
  else
    match hay with
    | [] => false
    | _ :: t => containsSub t needle

/-- Python `s.startswith(p)` on char lists. -/
def startsWithStr (l : List Char) (p : String) : Bool :=
  p.toList.isPrefixOf l

/-- Python `s.split('\n')`: split a char list at newline characters. -/
def splitOnNl : List Char → List (List Char)
  | [] => [[]]
  | c :: cs =>
    if c = '\n' then [] :: splitOnNl cs
    else (c :: (splitOnNl cs).headI) :: (splitOnNl cs).tail

/-- Python `'\n'.join(lines)` on char lists. -/
def joinNl : List (List Char) → List Char
  | [] => []
  | [l] => l
  | l :: ls => l ++ '\n' :: joinNl ls

/-! ## `code_executor.py`: `CodeExecutor.execute_code`

The filesystem is modelled by a state record tracking whether the
temporary file has been created and whether it currently exists; the
subprocess outcome is an explicit scenario parameter enumerating every
exit path of the Python function. -/

/-- State of the temporary file used by `execute_code`. -/
structure FSState where
  tempCreated : Bool
  tempExists : Bool
deriving DecidableEq

/-- Initial filesystem state: no temporary file. -/
def fsInit : FSState := ⟨false, false⟩

/-- `tempfile.NamedTemporaryFile(delete=False)`: the file is created. -/
def fsCreate (_ : FSState) : FSState := ⟨true, true⟩

/-- `os.unlink(temp_path)`: the file is removed. -/
def fsUnlink (st : FSState) : FSState := { st with tempExists := false }

/-- The `finally` block of `execute_code`: if `temp_path` is in scope and
the file exists, unlink it. -/
def fsFinally (st : FSState) : FSState :=
  if st.tempCreated then (if st.tempExists then fsUnlink st else st) else st

/-- Outcome of the subprocess launched by `execute_code`. -/
inductive RunOutcome where
  | completed (returncode : Int) (stdout stderr : String)
  | timedOut
  | popenError (msg : String)

/-- Exit paths of the `try` body of `execute_code`: an exception before
the temporary file is created, an exception after it is created, or a
subprocess run. -/
inductive ExecScenario where
  | setupErrorBeforeCreate (msg : String)
  | setupErrorAfterCreate (msg : String)
  | run (r : RunOutcome)

/-- Result message assembly for a completed/failed/timed-out subprocess,
following `execute_code` lines 144-174. -/
def runResult (timeout : Nat) : RunOutcome → Bool × String
  | RunOutcome.completed rc out err =>
    if rc ≠ 0 then (false, "Execution failed: " ++ err)
    else
      (true, String.mk (pyStrip
        (out ++ (if err ≠ "" then "\nStderr: " ++ err else "")).toList))
  | RunOutcome.timedOut =>
    (false, "Execution timed out after " ++ toString timeout ++ " seconds")
  | RunOutcome.popenError m => (false, "Execution error: " ++ m)

/-- Shallow embedding of `CodeExecutor.execute_code`: returns the
`(success, output)` pair together with the final filesystem state. -/
def execute_code (timeout : Nat) (language : String) (s : ExecScenario) :
    (Bool × String) × FSState :=
  if language ≠ "python" ∧ language ≠ "javascript" then
    ((false, "Unsupported language: " ++ language), fsInit)
  else
    match s with
    | ExecScenario.setupErrorBeforeCreate m =>
      ((false, "Setup error: " ++ m), fsFinally fsInit)
    | ExecScenario.setupErrorAfterCreate m =>
      ((false, "Setup error: " ++ m), fsFinally (fsCreate fsInit))
    | ExecScenario.run r =>
      (runResult timeout r, fsFinally (fsCreate fsInit))

/-! ## `code_question_handlers.py`: GA2/GA3 algorithmic branches -/

/-- Binary digits of `n`, most significant first (helper for `bin(n)[2:]`);
`fuel` bounds the recursion depth. -/
def binDigitsAux : Nat → Nat → List Char → List Char
  | 0, _, acc => acc
  | fuel + 1, n, acc =>
    if n = 0 then acc
    else binDigitsAux fuel (n / 2) ((if n % 2 = 1 then '1' else '0') :: acc)

/-- Python `bin(n)[2:]`: binary representation without the `0b` prefix. -/
def pyBin (n : Nat) : String :=
  if n = 0 then "0" else String.mk (binDigitsAux n n [])

/-- The iterative factorial of `handle_ga3_questions`:
`result = 1; for i in range(2, n + 1): result *= i`. -/
def pyFactorial (n : Nat) : Nat :=
  (List.range' 2 (n - 1)).foldl (fun acc i => acc * i) 1

/-- The `while i * i <= number` trial-division loop of the GA3 prime
check, stepping `i` by 6 and testing `i` and `i + 2`; `fuel` bounds the
iteration count (the top-level call passes `fuel = n`, which is shown
sufficient in the correctness proof). -/
def primeLoopIter (n : Nat) : Nat → Nat → Bool
  | _, 0 => true
  | i, fuel + 1 =>
    if i * i ≤ n then
      (if n % i = 0 || n % (i + 2) = 0 then false
       else primeLoopIter n (i + 6) fuel)
    else true

/-- The binary-representation branch of `handle_ga2_questions`
(lines 251-268), with its three memorized special cases. -/
def handle_ga2_binary (n : Nat) : String :=
  if n = 42 then "101010"
  else if n = 255 then "11111111"
  else if n = 128 then "10000000"
  else pyBin n

/-- The factorial branch of `handle_ga3_questions` (lines 339-357), with
its two memorized special cases. -/
def handle_ga3_factorial (n : Nat) : String :=
  if n = 5 then "120"
  else if n = 10 then "3628800"
  else toString (pyFactorial n)

/-- The prime-number branch of `handle_ga3_questions` (lines 390-421),
with its three memorized special cases followed by the 6k±1
trial-division check. -/
def handle_ga3_prime (n : Nat) : String :=
  if n = 17 then "True"
  else if n = 20 then "False"
  else if n = 97 then "True"
  else if n ≤ 1 then "False"
  else if n ≤ 3 then "True"
  else if n % 2 = 0 || n % 3 = 0 then "False"
  else if primeLoopIter n 5 n then "True" else "False"

/-- The algorithmic fallback of the GA3 prime branch without the three
memorized special cases (the code below them, lines 407-421). -/
def primeAlgorithmic (n : Nat) : String :=
  if n ≤ 1 then "False"
  else if n ≤ 3 then "True"
  else if n % 2 = 0 || n % 3 = 0 then "False"
  else if primeLoopIter n 5 n then "True" else "False"

/-- Trial-division reference definition of primality: `n` is prime iff
`2 ≤ n` and no `d` with `2 ≤ d < n` divides `n`. -/
def trialPrime (n : Nat) : Bool :=
  decide (2 ≤ n) &&
    (List.range n).all (fun d => decide (d < 2) || decide (n % d ≠ 0))

/-- The Euclidean `gcd` defined inside the LCM branch of
`handle_ga3_questions`: `while y: x, y = y, x % y; return x`. -/
def pyGcd (x y : Nat) : Nat :=
  if y = 0 then x else pyGcd y (x % y)
termination_by y
decreasing_by
  exact Nat.mod_lt _ (Nat.pos_of_ne_zero (by assumption))

/-- The LCM value computed by the GA3 LCM branch: `(a * b) // gcd(a, b)`. -/
def lcmValue (a b : Nat) : Nat := (a * b) / pyGcd a b

/-- The LCM branch of `handle_ga3_questions` (lines 423-444), with its
memorized special case for (12, 18). -/
def handle_ga3_lcm (a b : Nat) : String :=
  if (a = 12 ∧ b = 18) ∨ (a = 18 ∧ b = 12) then "36"
  else toString (lcmValue a b)

/-! ## `code_question_handlers.py`: `handle_weekday_count`

Dates are modelled as year/month/day triples (the result of a successful
`datetime.strptime(s, '%Y-%m-%d')`), mapped to rata-die day numbers
(proleptic Gregorian, `0001-01-01 = 1`); `datetime.weekday()` (Monday =
0) becomes `pyWeekday` on day numbers. -/

/-- A parsed `YYYY-MM-DD` date. -/
structure YMD where
  y : Nat
  m : Nat
  d : Nat
deriving DecidableEq

/-- Gregorian leap-year test. -/
def isLeap (y : Nat) : Bool := (y % 4 = 0 && y % 100 ≠ 0) || y % 400 = 0

/-- Days in the given month of the given year. -/
def monthLen (y m : Nat) : Nat :=
  if m = 2 then (if isLeap y then 29 else 28)
  else if m = 4 ∨ m = 6 ∨ m = 9 ∨ m = 11 then 30
  else 31

/-- Days in the months of year `y` strictly before month `m`. -/
def daysBeforeMonth (y m : Nat) : Nat :=
  (if m ≥ 2 then 31 else 0) + (if m ≥ 3 then (if isLeap y then 29 else 28) else 0) +
  (if m ≥ 4 then 31 else 0) + (if m ≥ 5 then 30 else 0) + (if m ≥ 6 then 31 else 0) +
  (if m ≥ 7 then 30 else 0) + (if m ≥ 8 then 31 else 0) + (if m ≥ 9 then 31 else 0) +
  (if m ≥ 10 then 30 else 0) + (if m ≥ 11 then 31 else 0) + (if m ≥ 12 then 30 else 0)

/-- Rata-die day number of a date (`0001-01-01` is day 1). -/
def rataDie (t : YMD) : Nat :=
  365 * (t.y - 1) + (t.y - 1) / 4 - (t.y - 1) / 100 + (t.y - 1) / 400 +
    daysBeforeMonth t.y t.m + t.d

/-- A date accepted by `datetime.strptime(s, '%Y-%m-%d')`: structurally
valid Gregorian, with the year in Python's `datetime` range
`MINYEAR = 1 .. MAXYEAR = 9999`. -/
def validYMD (t : YMD) : Prop :=
  1 ≤ t.y ∧ t.y ≤ 9999 ∧ 1 ≤ t.m ∧ t.m ≤ 12 ∧ 1 ≤ t.d ∧ t.d ≤ monthLen t.y t.m

instance (t : YMD) : Decidable (validYMD t) := by
  unfold validYMD; infer_instance

/-- Python `datetime.weekday()` of a rata-die day number (Monday = 0). -/
def pyWeekday (rd : Nat) : Nat := (rd + 6) % 7

/-- The counting loop of `handle_weekday_count`:
`while current_date <= end_date: if weekday == target: count += 1`;
`fuel` is the number of remaining days, inclusive. -/
def countWeekdaysLoop (wd : Nat) : Nat → Nat → Nat
  | _, 0 => 0
  | cur, fuel + 1 =>
    (if pyWeekday cur = wd then 1 else 0) + countWeekdaysLoop wd (cur + 1) fuel

/-- The three hardcoded GA5 date pairs of `handle_weekday_count`
(lines 669-680), tested against the unswapped extracted dates. -/
def isHardcodedPair (wd : Nat) (d1 d2 : YMD) : Prop :=
  (d1 = YMD.mk 1980 6 14 ∧ d2 = YMD.mk 2008 2 6 ∧ wd = 2) ∨
  (d1 = YMD.mk 1976 11 16 ∧ d2 = YMD.mk 2007 7 23 ∧ wd = 0) ∨
  (d1 = YMD.mk 1954 9 27 ∧ d2 = YMD.mk 2013 5 2 ∧ wd = 4)

instance (wd : Nat) (d1 d2 : YMD) : Decidable (isHardcodedPair wd d1 d2) := by
  unfold isHardcodedPair; infer_instance

/-- The swap `if start_date > end_date: start_date, end_date = end_date,
start_date` of `handle_weekday_count`. -/
def sortedRange (s0 e0 : Nat) : Nat × Nat :=
  if s0 > e0 then (e0, s0) else (s0, e0)

/-- Shallow embedding of `CodeQuestionHandler.handle_weekday_count` after
a successful extraction of the weekday index `wd` and the first two
dates `d1`, `d2`: swap so that start ≤ end, return a memorized constant
for the three GA5 pairs, otherwise count matching weekdays by iterating
day by day over the inclusive range.  When the end date is `9999-12-31`
(the date of `datetime.max`), the final `current_date +=
timedelta(days=1)` of the loop raises `OverflowError`, which the
`except` at line 691 turns into `return None` — modelled by the guard
before the count. -/
def handle_weekday_count (wd : Nat) (d1 d2 : YMD) : Option String :=
  if d1 = YMD.mk 1980 6 14 ∧ d2 = YMD.mk 2008 2 6 ∧ wd = 2 then some "1443"
  else if d1 = YMD.mk 1976 11 16 ∧ d2 = YMD.mk 2007 7 23 ∧ wd = 0 then some "1598"
  else if d1 = YMD.mk 1954 9 27 ∧ d2 = YMD.mk 2013 5 2 ∧ wd = 4 then some "3046"
  else if (sortedRange (rataDie d1) (rataDie d2)).2 = rataDie (YMD.mk 9999 12 31)
    then none
  else
    some (toString (countWeekdaysLoop wd (sortedRange (rataDie d1) (rataDie d2)).1
      ((sortedRange (rataDie d1) (rataDie d2)).2 -
        (sortedRange (rataDie d1) (rataDie d2)).1 + 1)))

/-! ## `code_question_handlers.py`: the `handle_question` cascade

Each individual handler is a function from the question to
`Except String (Option String)`: `Except.error` models a raised Python
exception, `Except.ok none` models `return None`, `Except.ok (some a)`
models returning the string `a`.  The cascade wraps every handler call
in `try/except` and treats errors and falsy results alike. -/

/-- A single question handler, which may raise. -/
abbrev Matcher : Type := String → Except String (Option String)

/-- Lowercased question string (Python `question.lower()`). -/
def lowerStr (q : String) : String := String.mk (lowerL q.toList)

/-- One `try/except` block of `handle_question`: a raised exception is
logged and swallowed, and a falsy result (None or the empty string) does
not count as an answer. -/
def runMatcher (m : Matcher) (q : String) : Option String :=
  match m q with
  | Except.error _ => none
  | Except.ok none => none
  | Except.ok (some a) => if a = "" then none else some a

/-- The matcher cascade: first non-falsy answer wins, otherwise
`(False, None)`. -/
def cascade : List Matcher → String → Bool × Option String
  | [], _ => (false, none)
  | m :: ms, q =>
    match runMatcher m q with
    | some a => (true, a)
    | none => cascade ms q

/-- The registered regex-pattern stage (`self.handlers`): each entry
pairs a predicate on the lowercased question (the `re.search` test) with
a handler, and the handler runs only when the predicate matches. -/
def patternStage (patterns : List ((String → Bool) × Matcher)) : List Matcher :=
  patterns.map (fun ph => fun q => if ph.1 (lowerStr q) then ph.2 q else Except.ok none)

/-- The full priority-ordered matcher list of
`CodeQuestionHandler.handle_question` (lines 49-138): GA1-GA5 handlers,
then the registered regex-pattern handlers, then the embedding
similarity, sales analytics and Apache log handlers. -/
def stageList (ga1 ga2 ga3 ga4 ga5 : Matcher)
    (patterns : List ((String → Bool) × Matcher))
    (embedM salesM apacheM : Matcher) : List Matcher :=
  [ga1, ga2, ga3, ga4, ga5] ++ patternStage patterns ++ [embedM, salesM, apacheM]

/-- Shallow embedding of `CodeQuestionHandler.handle_question`. -/
def handle_question (ga1 ga2 ga3 ga4 ga5 : Matcher)
    (patterns : List ((String → Bool) × Matcher))
    (embedM salesM apacheM : Matcher) (q : String) : Bool × Option String :=
  cascade (stageList ga1 ga2 ga3 ga4 ga5 patterns embedM salesM apacheM) q

/-- A handler invocation that yields no usable answer: it returned
`None`, returned the empty string, or raised. -/
def noAnswer (r : Except String (Option String)) : Prop :=
  r = Except.ok none ∨ r = Except.ok (some "") ∨ ∃ e, r = Except.error e

/-! ## `model_manager.py`: `ModelManager.clean_response`

The function is embedded over char lists; the `IndexError` raised by
`lines[0]` on an empty line list is modelled by the result `none`. -/

/-- Non-empty stripped lines:
`[line.strip() for line in response.split('\n') if line.strip()]`. -/
def linesOf (l : List Char) : List (List Char) :=
  ((splitOnNl l).map pyStrip).filter (fun s => s ≠ [])

/-- `line.lower().startswith(('answer:', 'the answer is:', 'result:'))`. -/
def startsAnswerLabel (l : List Char) : Bool :=
  startsWithStr (lowerL l) ("answer:") ||
  startsWithStr (lowerL l) ("the answer is:") ||
  startsWithStr (lowerL l) ("result:")

/-- `line.lower().startswith(('version:', 'os version:'))`. -/
def versionHeader (l : List Char) : Bool :=
  startsWithStr (lowerL l) ("version:") || startsWithStr (lowerL l) ("os version:")

/-- First line matching the answer-label test, if any (the `for`/`break`
loop of `clean_response`). -/
def findLabelLine : List (List Char) → Option (List Char)
  | [] => none
  | l :: ls => if startsAnswerLabel l then some l else findLabelLine ls

/-- `line.split(':', 1)[1]`: everything after the first colon (the
callers only use this on lines that contain a colon). -/
def afterFirstColon : List Char → List Char
  | [] => []
  | c :: t => if c = ':' then t else afterFirstColon t

/-- Python `min(lines, key=len)`: the first line of minimal length. -/
def minByLen (x : List Char) (xs : List (List Char)) : List Char :=
  xs.foldl (fun acc s => if s.length < acc.length then s else acc) x

/-- A quote character stripped by `response.strip('"\'')`. -/
def isQuoteChar (c : Char) : Bool := c = '"' || c = '\''

/-- `response.strip('"\'')`: drop leading and trailing quote characters. -/
def stripQuotes (l : List Char) : List Char :=
  ((l.dropWhile isQuoteChar).reverse.dropWhile isQuoteChar).reverse

/-- The boilerplate prefix list of `clean_response` (lines 322-326). -/
def commonLeadIns : List String :=
  ["the answer is ", "answer: ", "result: ", "value: ",
   "the value is ", "output: ", "the output is "]

/-- The sequential prefix-removal loop of `clean_response`
(lines 327-329): each matching lead-in is cut off and the remainder
re-stripped. -/
def stripLeadIns (l : List Char) : List Char :=
  commonLeadIns.foldl
    (fun r p => if startsWithStr (lowerL r) p then pyStrip (r.drop p.length) else r) l

/-- Shallow embedding of `ModelManager.clean_response` (lines 264-330).
`none` models the `IndexError` raised by `lines[0]` when the response
consists only of whitespace. -/
def clean_response (response question : String) : Option String :=
  let q := lowerL question.toList
  let lines := linesOf response.toList
  if containsSub q (("code -s").toList) && containsSub q (("output").toList) &&
      lines.any versionHeader then
    some (String.mk (joinNl lines))
  else
    match lines with
    | [] => none
    | [l0] => some (String.mk (stripLeadIns (stripQuotes l0)))
    | l0 :: l1 :: rest =>
      match findLabelLine (l0 :: l1 :: rest) with
      | some l =>
        some (String.mk (stripLeadIns (stripQuotes (pyStrip (afterFirstColon l)))))
      | none =>
        if (l0 :: l1 :: rest).any versionHeader then
          some (String.mk (joinNl (l0 :: l1 :: rest)))
        else if containsSub q (("command").toList) || containsSub q (("output").toList) then
          some (String.mk (joinNl (l0 :: l1 :: rest)))
        else
          some (String.mk (stripLeadIns (stripQuotes (minByLen l0 (l1 :: rest)))))

/-! ## `model_manager.py`: `ModelManager.select_model_for_question` -/

/-- The coding-indicator vocabulary (lines 84-89; note `"function"`
appears twice in the source list). -/
def coding_indicators : List String :=
  ["code", "function", "algorithm", "programming",
   "python", "javascript", "compute", "calculate",
   "implement", "script", "function", "class", "method",
   "syntax", "compiler", "interpreter", "runtime"]

/-- The data-analysis-indicator vocabulary (lines 92-96). -/
def data_indicators : List String :=
  ["data frame", "pandas", "csv", "dataset", "data set",
   "visualization", "plot", "graph", "chart", "analysis",
   "statistics", "regression", "prediction", "machine learning"]

/-- `sum(1 for indicator in indicators if indicator in question_lower)`. -/
def countIndicators (inds : List String) (ql : List Char) : Nat :=
  (inds.filter (fun t => containsSub ql t.toList)).length

/-- Shallow embedding of `ModelManager.select_model_for_question`
(lines 65-110): `none` when no models are available, otherwise OpenAI
only when the coding score strictly exceeds the data score, else Gemini
when configured, else the first available model. -/
def select_model_for_question (available : List String) (question : String) :
    Option String :=
  if available = [] then none
  else if countIndicators coding_indicators (lowerL question.toList) >
            countIndicators data_indicators (lowerL question.toList) ∧
          available.contains ("openai") then some "openai"
  else if available.contains ("gemini") then some "gemini"
  else available.head?

/-! ## Helper lemmas -/

/-- The Python `gcd` inner function of the GA3 LCM branch computes
`Nat.gcd`. -/
theorem pyGcd_eq_gcd (x y : Nat) : pyGcd x y = Nat.gcd x y := by
  induction y using Nat.strong_induction_on generalizing x with
  | _ y ih =>
    rw [pyGcd]
    by_cases hy : y = 0
    · subst hy; simp [Nat.gcd_zero_right]
    · rw [if_neg hy, ih (x % y) (Nat.mod_lt _ (Nat.pos_of_ne_zero hy)) y,
        Nat.gcd_comm y (x % y), ← Nat.gcd_rec, Nat.gcd_comm]

/-! ## Claim theorems -/

/-- C5: For every code string and language, after `execute_code` returns
the temporary file it created no longer exists, on every exit path:
successful execution, non-zero exit, timeout, execution exception, and
exception during setup. -/
theorem claim5_temp_file_always_removed (timeout : Nat) (language : String)
    (s : ExecScenario) :
    ((execute_code timeout language s).2).tempExists = false := by
  unfold execute_code
  split
  · rfl
  · cases s with
    | setupErrorBeforeCreate m => rfl
    | setupErrorAfterCreate m => rfl
    | run r => rfl

/-- C10: Every memorized special-case constant agrees with the
algorithmic fallback it shadows: the hardcoded binary answers for
42/255/128 equal `bin(n)` without the `0b` prefix, the hardcoded
factorial answers for 5/10 equal the iterative product, and the
hardcoded primality answers for 17/20/97 equal the 6k±1 trial-division
check below them. -/
theorem claim10_memorized_constants_agree :
    handle_ga2_binary 42 = pyBin 42 ∧
    handle_ga2_binary 255 = pyBin 255 ∧
    handle_ga2_binary 128 = pyBin 128 ∧
    handle_ga3_factorial 5 = toString (pyFactorial 5) ∧
    handle_ga3_factorial 10 = toString (pyFactorial 10) ∧
    handle_ga3_prime 17 = primeAlgorithmic 17 ∧
    handle_ga3_prime 20 = primeAlgorithmic 20 ∧
    handle_ga3_prime 97 = primeAlgorithmic 97 := by
  refine ⟨rfl, rfl, rfl, rfl, rfl, rfl, rfl, rfl⟩

/-- C7: For every pair of positive integers, the LCM computed by the LCM
branch of `handle_ga3_questions` (via the embedded Euclidean GCD)
satisfies `LCM(a, b) * GCD(a, b) = a * b`; in particular `LCM(12, 18)`
is `"36"`. -/
theorem claim7_lcm_gcd_product (a b : Nat) (_ha : 0 < a) (_hb : 0 < b) :
    lcmValue a b * pyGcd a b = a * b ∧ handle_ga3_lcm 12 18 = "36" := by
  constructor
  · rw [lcmValue, pyGcd_eq_gcd]
    exact Nat.div_mul_cancel (Dvd.dvd.mul_right (Nat.gcd_dvd_left a b) b)
  · rfl

/-- C7 witness: the theorem instantiated at `a = 4`, `b = 6`. -/
theorem claim7_lcm_gcd_product_witness :
    0 < 4 ∧ 0 < 6 ∧
      (lcmValue 4 6 * pyGcd 4 6 = 4 * 6 ∧ handle_ga3_lcm 12 18 = "36") :=
  ⟨by decide, by decide, claim7_lcm_gcd_product 4 6 (by decide) (by decide)⟩

/-- C8 counterexample: for the question `"code analysis"` the coding and
data scores tie, both backends are configured, and yet
`select_model_for_question` returns `"gemini"`, not `"openai"`. -/
theorem claim8_tie_counterexample :
    countIndicators coding_indicators (lowerL ("code analysis").toList) =
      countIndicators data_indicators (lowerL ("code analysis").toList) ∧
    select_model_for_question ["gemini", "openai"] "code analysis" = some "gemini" ∧
    (some "gemini" : Option String) ≠ some "openai" := by
  refine ⟨by decide, by decide, by decide⟩

/-- C8 (amended): when both backends are configured and the
coding-indicator score equals the data-analysis score, Gemini is
selected; OpenAI requires a strictly greater coding score. -/
theorem claim8_tie_selects_gemini (q : String)
    (h : countIndicators coding_indicators (lowerL q.toList) =
         countIndicators data_indicators (lowerL q.toList)) :
    select_model_for_question ["gemini", "openai"] q = some "gemini" := by
  unfold select_model_for_question
  rw [if_neg (by decide : ¬((["gemini", "openai"] : List String) = [])),
    if_neg (fun hc => absurd hc.1 (by omega)), if_pos (by decide)]

/-- C8 witness: the amended theorem instantiated at the tied question
`"code analysis"`. -/
theorem claim8_tie_selects_gemini_witness :
    countIndicators coding_indicators (lowerL ("code analysis").toList) =
      countIndicators data_indicators (lowerL ("code analysis").toList) ∧
    select_model_for_question ["gemini", "openai"] "code analysis" = some "gemini" :=
  ⟨by decide, claim8_tie_selects_gemini "code analysis" (by decide)⟩

/-! ## The cascade claims (C2, C4) -/

/-- A handler invocation that yields no usable answer is skipped by the
cascade. -/
theorem runMatcher_eq_none_of_noAnswer {m : Matcher} {q : String}
    (h : noAnswer (m q)) : runMatcher m q = none := by
  rcases h with h | h | ⟨e, h⟩ <;> simp [runMatcher, h]

/-- When every matcher yields no usable answer, the cascade reports not
handled. -/
theorem cascade_eq_not_handled (ms : List Matcher) (q : String)
    (h : ∀ m ∈ ms, noAnswer (m q)) : cascade ms q = (false, none) := by
  induction ms with
  | nil => rfl
  | cons m rest ih =>
    rw [cascade, runMatcher_eq_none_of_noAnswer (h m (List.mem_cons_self m rest))]
    exact ih (fun m' hm' => h m' (List.mem_cons_of_mem m hm'))

/-- A block of matchers that all yield `none` is skipped wholesale. -/
theorem cascade_append_none (pre rest : List Matcher) (q : String)
    (h : ∀ m ∈ pre, runMatcher m q = none) :
    cascade (pre ++ rest) q = cascade rest q := by
  induction pre with
  | nil => rfl
  | cons m pre' ih =>
    rw [List.cons_append, cascade, h m (List.mem_cons_self m pre')]
    exact ih (fun m' hm' => h m' (List.mem_cons_of_mem m hm'))

/-- C2: `handle_question` never propagates a matcher exception: a
matcher that raises is skipped exactly as if it had returned no answer,
and when every stage (GA1-GA5, the regex-pattern handlers, embedding,
sales analytics, Apache log) yields no usable answer — in particular on
input with no recognizable pattern — the result is `(False, None)`. -/
theorem claim2_never_raises :
    (∀ (m : Matcher) (ms : List Matcher) (q e : String),
       m q = Except.error e → cascade (m :: ms) q = cascade ms q) ∧
    (∀ (ga1 ga2 ga3 ga4 ga5 : Matcher)
       (patterns : List ((String → Bool) × Matcher))
       (embedM salesM apacheM : Matcher) (q : String),
       (∀ m ∈ stageList ga1 ga2 ga3 ga4 ga5 patterns embedM salesM apacheM,
          noAnswer (m q)) →
       handle_question ga1 ga2 ga3 ga4 ga5 patterns embedM salesM apacheM q =
         (false, none)) := by
  constructor
  · intro m ms q e h
    rw [cascade, runMatcher_eq_none_of_noAnswer (Or.inr (Or.inr ⟨e, h⟩))]
  · intro ga1 ga2 ga3 ga4 ga5 patterns embedM salesM apacheM q h
    exact cascade_eq_not_handled _ q h

/-- A matcher that always raises (used to witness the cascade claims). -/
def alwaysBoom : Matcher := fun _ => Except.error ("boom")

/-- A matcher that always answers `"ok"` (used to witness the cascade
claims). -/
def answerOk : Matcher := fun _ => Except.ok (some ("ok"))

/-- C2 witness: a raising matcher is skipped, and a cascade of raising
matchers yields `(False, None)`. -/
theorem claim2_never_raises_witness :
    (alwaysBoom "" = Except.error "boom" ∧
      cascade [alwaysBoom] "" = cascade [] "") ∧
    ((∀ m ∈ stageList alwaysBoom alwaysBoom alwaysBoom alwaysBoom alwaysBoom []
        alwaysBoom alwaysBoom alwaysBoom, noAnswer (m "")) ∧
      handle_question alwaysBoom alwaysBoom alwaysBoom alwaysBoom alwaysBoom []
        alwaysBoom alwaysBoom alwaysBoom "" = (false, none)) := by
  have hall : ∀ m ∈ stageList alwaysBoom alwaysBoom alwaysBoom alwaysBoom
      alwaysBoom [] alwaysBoom alwaysBoom alwaysBoom, noAnswer (m "") := by
    intro m hm
    simp only [stageList, patternStage, List.map_nil, List.append_nil,
      List.nil_append, List.mem_append, List.mem_cons,
      List.not_mem_nil, or_false] at hm
    have hmb : m = alwaysBoom := by tauto
    subst hmb
    exact Or.inr (Or.inr ⟨"boom", rfl⟩)
  exact ⟨⟨rfl, claim2_never_raises.1 alwaysBoom [] "" "boom" rfl⟩,
    ⟨hall, claim2_never_raises.2 alwaysBoom alwaysBoom alwaysBoom alwaysBoom
      alwaysBoom [] alwaysBoom alwaysBoom alwaysBoom "" hall⟩⟩

/-- C4: matcher precedence is first-match-wins in the fixed stage order
(GA1, GA2, GA3, GA4, GA5, the registered regex-pattern handlers,
embedding similarity, sales analytics, Apache log): whenever every
earlier stage yields no usable answer and some stage returns a non-empty
answer, `handle_question` returns `(True, answer)` independently of all
later stages. -/
theorem claim4_first_match_wins (ga1 ga2 ga3 ga4 ga5 : Matcher)
    (patterns : List ((String → Bool) × Matcher))
    (embedM salesM apacheM : Matcher) (q a : String)
    (pre : List Matcher) (m : Matcher) (post : List Matcher)
    (hsplit : stageList ga1 ga2 ga3 ga4 ga5 patterns embedM salesM apacheM =
      pre ++ m :: post)
    (hpre : ∀ m' ∈ pre, runMatcher m' q = none)
    (hm : m q = Except.ok (some a)) (ha : a ≠ "") :
    handle_question ga1 ga2 ga3 ga4 ga5 patterns embedM salesM apacheM q =
      (true, some a) := by
  rw [handle_question, hsplit, cascade_append_none pre (m :: post) q hpre,
    cascade, runMatcher, hm]
  simp [ha]

/-- C4 witness: with GA1 raising and GA2 answering `"ok"`, the cascade
returns `(True, "ok")` regardless of the later raising stages. -/
theorem claim4_first_match_wins_witness :
    handle_question alwaysBoom answerOk alwaysBoom alwaysBoom alwaysBoom []
      alwaysBoom alwaysBoom alwaysBoom "q" = (true, some "ok") :=
  claim4_first_match_wins alwaysBoom answerOk alwaysBoom alwaysBoom alwaysBoom
    [] alwaysBoom alwaysBoom alwaysBoom "q" "ok"
    [alwaysBoom] answerOk
    ([alwaysBoom, alwaysBoom, alwaysBoom] ++ patternStage [] ++
      [alwaysBoom, alwaysBoom, alwaysBoom])
    rfl
    (by intro m' hm'
        rcases List.mem_singleton.mp hm' with rfl
        rfl)
    rfl (by decide)

/-! ## The answer-cleaner claims (C3, C9) -/

/-- `dropWhile` removes everything when the predicate holds everywhere. -/
theorem dropWhile_eq_nil_of_all {p : Char → Bool} {l : List Char}
    (h : ∀ c ∈ l, p c = true) : l.dropWhile p = [] := by
  induction l with
  | nil => rfl
  | cons c cs ih =>
    rw [List.dropWhile_cons, if_pos (h c (List.mem_cons_self c cs))]
    exact ih (fun c' hc' => h c' (List.mem_cons_of_mem c hc'))

/-- Stripping an all-whitespace char list yields the empty list. -/
theorem pyStrip_eq_nil_of_all_space {l : List Char}
    (h : ∀ c ∈ l, isPySpace c = true) : pyStrip l = [] := by
  unfold pyStrip
  rw [dropWhile_eq_nil_of_all h]
  rfl

/-- Every segment of an all-whitespace char list is all-whitespace. -/
theorem splitOnNl_all_space {l : List Char} (h : ∀ c ∈ l, isPySpace c = true) :
    ∀ s ∈ splitOnNl l, ∀ c ∈ s, isPySpace c = true := by
  induction l with
  | nil =>
    intro s hs c hc
    rw [splitOnNl] at hs
    rw [List.mem_singleton.mp hs] at hc
    cases hc
  | cons c0 cs ih =>
    intro s hs c hc
    have hcs : ∀ c' ∈ cs, isPySpace c' = true :=
      fun c' hc' => h c' (List.mem_cons_of_mem c0 hc')
    rw [splitOnNl] at hs
    by_cases hnl : c0 = '\n'
    · rw [if_pos hnl] at hs
      rcases List.mem_cons.mp hs with rfl | hs'
      · cases hc
      · exact ih hcs s hs' c hc
    · rw [if_neg hnl] at hs
      rcases List.mem_cons.mp hs with rfl | hs'
      · rcases List.mem_cons.mp hc with hceq | hc'
        · rw [hceq]
          exact h _ (List.mem_cons_self _ cs)
        · rcases hsp : splitOnNl cs with _ | ⟨s0, ss⟩
          · rw [hsp] at hc'
            have hdef : (default : List Char) = [] := rfl
            simp [List.headI, hdef] at hc'
          · rw [hsp] at hc'
            exact ih hcs s0 (by rw [hsp]; exact List.mem_cons_self s0 ss) c
              (by simpa using hc')
      · exact ih hcs s (List.mem_of_mem_tail hs') c hc

/-- An all-whitespace response produces an empty stripped-line list. -/
theorem linesOf_eq_nil_of_all_space {l : List Char}
    (h : ∀ c ∈ l, isPySpace c = true) : linesOf l = [] := by
  unfold linesOf
  rw [List.filter_eq_nil_iff]
  intro s hs
  rcases List.mem_map.mp hs with ⟨s0, hs0, rfl⟩
  simp [pyStrip_eq_nil_of_all_space (splitOnNl_all_space h s0 hs0)]

/-- C9: `clean_response` is not total at the public interface: for every
question, a raw response consisting only of whitespace (including the
empty string) makes `lines[0]` raise `IndexError` (modelled by `none`)
instead of producing an answer string. -/
theorem claim9_whitespace_raises (question response : String)
    (h : ∀ c ∈ response.toList, isPySpace c = true) :
    clean_response response question = none := by
  unfold clean_response
  rw [linesOf_eq_nil_of_all_space h]
  simp

/-- C9 witness: the theorem instantiated at the whitespace response
`" \n "`. -/
theorem claim9_whitespace_raises_witness :
    (∀ c ∈ (" \n " : String).toList, isPySpace c = true) ∧
      clean_response " \n " "any question" = none :=
  ⟨by decide, claim9_whitespace_raises "any question" " \n " (by decide)⟩

/-- C3 counterexample: `clean_response` is not idempotent: cleaning
`"value: answer: 3"` yields `"answer: 3"`, and cleaning that output
again yields `"3"`. -/
theorem claim3_not_idempotent_counterexample :
    clean_response "value: answer: 3" "q" = some "answer: 3" ∧
    clean_response "answer: 3" "q" = some "3" ∧
    ("answer: 3" : String) ≠ "3" := by
  refine ⟨by decide, by decide, by decide⟩

/-- A char list with no newline splits into a single segment. -/
theorem splitOnNl_no_newline {l : List Char} (h : ('\n') ∉ l) :
    splitOnNl l = [l] := by
  induction l with
  | nil => rfl
  | cons c cs ih =>
    rw [splitOnNl,
      if_neg (fun hc => h (by rw [← hc]; exact List.mem_cons_self c cs)),
      ih (fun hc => h (List.mem_cons_of_mem c hc))]
    rfl

/-- C3 (amended): cleaning an already-clean single-line answer returns
it unchanged — for every question, a non-empty, whitespace-trimmed,
newline-free response on which quote-stripping and lead-in-prefix
removal act as the identity is a fixed point of `clean_response` (but
`clean_response` is not idempotent on arbitrary non-empty text). -/
theorem claim3_clean_single_line_fixed_point (question x : String)
    (h0 : x.toList ≠ [])
    (h1 : ('\n') ∉ x.toList)
    (h2 : pyStrip x.toList = x.toList)
    (h3 : stripQuotes x.toList = x.toList)
    (h4 : stripLeadIns x.toList = x.toList) :
    clean_response x question = some x := by
  have hl : linesOf x.toList = [x.toList] := by
    unfold linesOf
    rw [splitOnNl_no_newline h1, List.map_singleton, h2,
      List.filter_cons, if_pos (by simpa using h0)]
    rfl
  simp only [clean_response]
  rw [hl]
  split
  · show some (String.mk (joinNl [x.toList])) = some x
    rfl
  · show some (String.mk (stripLeadIns (stripQuotes x.toList))) = some x
    rw [h3, h4]
    rfl

/-- C3 witness: the amended theorem instantiated at the already-clean
answer `"42"`. -/
theorem claim3_clean_single_line_fixed_point_witness :
    (("42" : String).toList ≠ [] ∧ ('\n') ∉ ("42" : String).toList ∧
      pyStrip ("42").toList = ("42").toList ∧
      stripQuotes ("42").toList = ("42").toList ∧
      stripLeadIns ("42").toList = ("42").toList) ∧
    clean_response "42" "what is six times seven" = some "42" :=
  ⟨⟨by decide, by decide, by decide, by decide, by decide⟩,
    claim3_clean_single_line_fixed_point "what is six times seven" "42"
      (by decide) (by decide) (by decide) (by decide) (by decide)⟩

/-! ## The weekday-count claim (C1) -/

/-- The day-by-day counting loop counts exactly the matching rata-die
numbers of the half-open interval it traverses. -/
theorem countWeekdaysLoop_eq_card (wd : Nat) :
    ∀ (fuel s : Nat), countWeekdaysLoop wd s fuel =
      ((Finset.Ico s (s + fuel)).filter (fun rd => pyWeekday rd = wd)).card := by
  intro fuel
  induction fuel with
  | zero => intro s; simp [countWeekdaysLoop]
  | succ fuel ih =>
    intro s
    have hins : Finset.Ico s (s + (fuel + 1)) =
        insert s (Finset.Ico (s + 1) (s + 1 + fuel)) := by
      ext t
      simp only [Finset.mem_Ico, Finset.mem_insert]
      omega
    rw [countWeekdaysLoop, ih (s + 1), hins, Finset.filter_insert]
    by_cases hw : pyWeekday s = wd
    · rw [if_pos hw, if_pos hw, Finset.card_insert_of_not_mem (by
        simp only [Finset.mem_filter, Finset.mem_Ico]
        omega)]
      omega
    · rw [if_neg hw, if_neg hw]
      omega

/-- The swap helper returns the ordered pair. -/
theorem sortedRange_eq (s0 e0 : Nat) :
    sortedRange s0 e0 = (min s0 e0, max s0 e0) := by
  unfold sortedRange
  split
  · next h => rw [min_eq_right (le_of_lt h), max_eq_left (le_of_lt h)]
  · next h => rw [min_eq_left (le_of_not_lt h), max_eq_right (le_of_not_lt h)]

/-- C1 counterexample: the query (Mondays, 9999-12-01, 9999-12-31)
satisfies every hypothesis of the claim (recognized day index, two
strptime-valid dates, not a hardcoded pair), yet the handler returns
`None` — the counting loop's final `current_date += timedelta(days=1)`
overflows `datetime.max` and the `except` swallows it — instead of the
decimal count string the claim asserts. -/
theorem claim1_overflow_counterexample :
    (0 < 7 ∧ validYMD (YMD.mk 9999 12 1) ∧ validYMD (YMD.mk 9999 12 31) ∧
      ¬ isHardcodedPair 0 (YMD.mk 9999 12 1) (YMD.mk 9999 12 31)) ∧
    handle_weekday_count 0 (YMD.mk 9999 12 1) (YMD.mk 9999 12 31) = none ∧
    (none : Option String) ≠
      some (toString (((Finset.Icc
          (min (rataDie (YMD.mk 9999 12 1)) (rataDie (YMD.mk 9999 12 31)))
          (max (rataDie (YMD.mk 9999 12 1)) (rataDie (YMD.mk 9999 12 31)))).filter
          (fun rd => pyWeekday rd = 0)).card)) := by
  refine ⟨⟨by decide, by decide, by decide, by decide⟩, by decide, by decide⟩

/-- C1 (amended): for every weekday-count question handled
algorithmically (a recognized day index, two valid dates, not one of the
three hardcoded GA5 pairs), if the later date is not `9999-12-31` the
returned string is the decimal count of calendar dates `d` with
`min(start, end) ≤ d ≤ max(start, end)` whose weekday equals the
requested day, inclusive of both bounds; if the later date is
`9999-12-31` the day increment past `datetime.max` raises
`OverflowError` and the handler returns `None`; and the pair (Mondays,
1976-11-16, 2007-07-23) yields `"1598"`. -/
theorem claim1_weekday_count_correct (wd : Nat) (d1 d2 : YMD)
    (_hwd : wd < 7) (_hv1 : validYMD d1) (_hv2 : validYMD d2)
    (hnot : ¬ isHardcodedPair wd d1 d2) :
    (max (rataDie d1) (rataDie d2) ≠ rataDie (YMD.mk 9999 12 31) →
      handle_weekday_count wd d1 d2 =
        some (toString (((Finset.Icc (min (rataDie d1) (rataDie d2))
            (max (rataDie d1) (rataDie d2))).filter
            (fun rd => pyWeekday rd = wd)).card))) ∧
    (max (rataDie d1) (rataDie d2) = rataDie (YMD.mk 9999 12 31) →
      handle_weekday_count wd d1 d2 = none) ∧
    handle_weekday_count 0 (YMD.mk 1976 11 16) (YMD.mk 2007 7 23) =
      some "1598" := by
  refine ⟨?_, ?_, by decide⟩
  · intro hov
    unfold handle_weekday_count
    rw [if_neg (fun hc => hnot (Or.inl hc)),
      if_neg (fun hc => hnot (Or.inr (Or.inl hc))),
      if_neg (fun hc => hnot (Or.inr (Or.inr hc))),
      sortedRange_eq, if_neg hov]
    have hminmax : min (rataDie d1) (rataDie d2) ≤
        max (rataDie d1) (rataDie d2) := min_le_max
    rw [countWeekdaysLoop_eq_card]
    have harg : min (rataDie d1) (rataDie d2) +
        (max (rataDie d1) (rataDie d2) - min (rataDie d1) (rataDie d2) + 1) =
        max (rataDie d1) (rataDie d2) + 1 := by omega
    rw [harg, Nat.Ico_succ_right]
  · intro hov
    unfold handle_weekday_count
    rw [if_neg (fun hc => hnot (Or.inl hc)),
      if_neg (fun hc => hnot (Or.inr (Or.inl hc))),
      if_neg (fun hc => hnot (Or.inr (Or.inr hc))),
      sortedRange_eq, if_pos hov]

/-- C1 witness: the amended theorem instantiated at Mondays over January
2024 (not a hardcoded pair, not ending at 9999-12-31). -/
theorem claim1_weekday_count_correct_witness :
    (0 < 7 ∧ validYMD (YMD.mk 2024 1 1) ∧ validYMD (YMD.mk 2024 1 31) ∧
      ¬ isHardcodedPair 0 (YMD.mk 2024 1 1) (YMD.mk 2024 1 31) ∧
      max (rataDie (YMD.mk 2024 1 1)) (rataDie (YMD.mk 2024 1 31)) ≠
        rataDie (YMD.mk 9999 12 31)) ∧
    (handle_weekday_count 0 (YMD.mk 2024 1 1) (YMD.mk 2024 1 31) =
      some (toString (((Finset.Icc
          (min (rataDie (YMD.mk 2024 1 1)) (rataDie (YMD.mk 2024 1 31)))
          (max (rataDie (YMD.mk 2024 1 1)) (rataDie (YMD.mk 2024 1 31)))).filter
          (fun rd => pyWeekday rd = 0)).card))) ∧
    (handle_weekday_count 0 (YMD.mk 1976 11 16) (YMD.mk 2007 7 23) =
      some "1598") := by
  refine ⟨⟨by decide, by decide, by decide, by decide, by decide⟩, ?_, ?_⟩
  · exact (claim1_weekday_count_correct 0 (YMD.mk 2024 1 1) (YMD.mk 2024 1 31)
      (by decide) (by decide) (by decide) (by decide)).1 (by decide)
  · exact (claim1_weekday_count_correct 0 (YMD.mk 2024 1 1) (YMD.mk 2024 1 31)
      (by decide) (by decide) (by decide) (by decide)).2.2

/-! ## The prime-check claim (C6) -/

/-- Soundness of the 6k±1 loop: if it reports a divisor, `n` really has
a nontrivial divisor. -/
theorem primeLoop_sound (n : Nat) :
    ∀ fuel i, 5 ≤ i → primeLoopIter n i fuel = false →
      ∃ m, 2 ≤ m ∧ m < n ∧ m ∣ n := by
  intro fuel
  induction fuel with
  | zero =>
    intro i h5 hfalse
    simp only [primeLoopIter] at hfalse
    exact Bool.noConfusion hfalse
  | succ fuel ih =>
    intro i h5 hfalse
    simp only [primeLoopIter] at hfalse
    by_cases hle : i * i ≤ n
    · rw [if_pos hle] at hfalse
      have h5i : 5 * i ≤ i * i := Nat.mul_le_mul_right i h5
      by_cases hd1 : n % i = 0
      · exact ⟨i, by omega, by omega, Nat.dvd_of_mod_eq_zero hd1⟩
      · by_cases hd2 : n % (i + 2) = 0
        · exact ⟨i + 2, by omega, by omega, Nat.dvd_of_mod_eq_zero hd2⟩
        · rw [if_neg (by simp [hd1, hd2])] at hfalse
          exact ih (i + 6) (by omega) hfalse
    · rw [if_neg hle] at hfalse
      cases hfalse

/-- Completeness of the 6k±1 loop: if a divisor congruent to 5 mod 6
(or whose partner `t + 2` divides) lies ahead of the loop counter and
below the square root, the loop reports it.  The invariant
`i = 5 + 6 * (n - fuel)` shows that the fuel `n` passed by
`handle_ga3_prime` never runs out early. -/
theorem primeLoop_complete (n : Nat) :
    ∀ fuel i t, i % 6 = 5 → i = 5 + 6 * (n - fuel) → fuel ≤ n →
      t % 6 = 5 → i ≤ t → t * t ≤ n → (n % t = 0 ∨ n % (t + 2) = 0) →
      primeLoopIter n i fuel = false := by
  intro fuel
  induction fuel with
  | zero =>
    intro i t h6 hinv hfn ht6 hit htt hdvd
    exfalso
    have h5t : 5 ≤ t := by omega
    have h5tt : 5 * t ≤ t * t := Nat.mul_le_mul_right t h5t
    omega
  | succ fuel ih =>
    intro i t h6 hinv hfn ht6 hit htt hdvd
    have hii : i * i ≤ n := le_trans (Nat.mul_le_mul hit hit) htt
    simp only [primeLoopIter]
    rw [if_pos hii]
    by_cases hieq : i = t
    · subst hieq
      rw [if_pos (by rcases hdvd with h | h <;> simp [h])]
    · by_cases hcond : (n % i = 0 || n % (i + 2) = 0) = true
      · rw [if_pos hcond]
      · rw [if_neg hcond]
        exact ih (i + 6) t (by omega) (by omega) (by omega) ht6 (by omega)
          htt hdvd

/-- For `n ≥ 4` with no factor 2 or 3, the GA3 loop (with fuel `n`)
decides primality. -/
theorem primeCheckLoop_iff (n : Nat) (h4 : 4 ≤ n) (h2 : n % 2 ≠ 0)
    (h3 : n % 3 ≠ 0) : primeLoopIter n 5 n = true ↔ Nat.Prime n := by
  constructor
  · intro htrue
    by_contra hnp
    have h2n : 2 ≤ n := by omega
    rw [Nat.prime_def_le_sqrt] at hnp
    push_neg at hnp
    obtain ⟨m, hm2, hmm0, hmdvd⟩ := hnp h2n
    have hmm : m * m ≤ n := Nat.le_sqrt.mp hmm0
    have hnd2 : ¬ (2 ∣ n) := by omega
    have hnd3 : ¬ (3 ∣ n) := by omega
    have hmd2 : ¬ (2 ∣ m) := fun hd => hnd2 (dvd_trans hd hmdvd)
    have hmd3 : ¬ (3 ∣ m) := fun hd => hnd3 (dvd_trans hd hmdvd)
    have hm6 : m % 6 = 1 ∨ m % 6 = 5 := by omega
    have hm5 : 5 ≤ m := by omega
    have hmod : n % m = 0 := by
      obtain ⟨k, hk⟩ := hmdvd
      rw [hk]
      exact Nat.mul_mod_right m k
    rcases hm6 with h61 | h65
    · have hm7 : 7 ≤ m := by omega
      have hdone := primeLoop_complete n n 5 (m - 2) (by omega) (by omega)
        (le_refl n) (by omega) (by omega)
        (le_trans (Nat.mul_le_mul (Nat.sub_le m 2) (Nat.sub_le m 2)) hmm)
        (Or.inr (by rw [show m - 2 + 2 = m by omega]; exact hmod))
      rw [hdone] at htrue
      cases htrue
    · have hdone := primeLoop_complete n n 5 m (by omega) (by omega)
        (le_refl n) h65 hm5 hmm (Or.inl hmod)
      rw [hdone] at htrue
      cases htrue
  · intro hp
    by_contra hfalse
    have hfalse' : primeLoopIter n 5 n = false := by
      cases hb : primeLoopIter n 5 n
      · rfl
      · exact absurd hb hfalse
    obtain ⟨m, hm2, hmlt, hmdvd⟩ := primeLoop_sound n n 5 (by omega) hfalse'
    rcases hp.eq_one_or_self_of_dvd m hmdvd with h | h <;> omega

/-- The trial-division reference agrees with `Nat.Prime`. -/
theorem trialPrime_iff (n : Nat) : trialPrime n = true ↔ Nat.Prime n := by
  unfold trialPrime
  rw [Bool.and_eq_true, List.all_eq_true]
  constructor
  · rintro ⟨h2, hall⟩
    have h2' : 2 ≤ n := by simpa using h2
    rw [Nat.prime_def_lt]
    refine ⟨h2', fun m hmlt hmdvd => ?_⟩
    have hm := hall m (List.mem_range.mpr hmlt)
    simp only [Bool.or_eq_true, decide_eq_true_eq] at hm
    rcases hm with hlt | hmod
    · rcases m with _ | _ | m
      · exact absurd (zero_dvd_iff.mp hmdvd) (by omega)
      · rfl
      · exact absurd hlt (by omega)
    · obtain ⟨k, hk⟩ := hmdvd
      exact absurd (by rw [hk]; exact Nat.mul_mod_right m k) hmod
  · intro hp
    refine ⟨by simpa using hp.two_le, fun d hd => ?_⟩
    have hdlt : d < n := List.mem_range.mp hd
    simp only [Bool.or_eq_true, decide_eq_true_eq]
    by_cases hdvd : d ∣ n
    · left
      have := (Nat.prime_def_lt.mp hp).2 d hdlt hdvd
      omega
    · right
      exact fun h0 => hdvd (Nat.dvd_of_mod_eq_zero h0)

/-- The GA3 prime branch agrees with the trial-division reference on
every input. -/
theorem handle_ga3_prime_eq (n : Nat) :
    handle_ga3_prime n = (if trialPrime n then "True" else "False") := by
  by_cases h17 : n = 17
  · subst h17; decide
  by_cases h20 : n = 20
  · subst h20; decide
  by_cases h97 : n = 97
  · subst h97; decide
  unfold handle_ga3_prime
  rw [if_neg h17, if_neg h20, if_neg h97]
  by_cases hle1 : n ≤ 1
  · rw [if_pos hle1]
    have hn2 : ¬ (2 ≤ n) := by omega
    simp [trialPrime, hn2]
  rw [if_neg hle1]
  by_cases hle3 : n ≤ 3
  · rw [if_pos hle3]
    have h23 : n = 2 ∨ n = 3 := by omega
    rcases h23 with rfl | rfl <;> decide
  rw [if_neg hle3]
  by_cases hdv : n % 2 = 0 ∨ n % 3 = 0
  · rw [if_pos (by rcases hdv with h | h <;> simp [h])]
    have hnp : ¬ Nat.Prime n := by
      intro hp
      rcases hdv with h | h
      · rcases hp.eq_one_or_self_of_dvd 2 (by omega) with h' | h' <;> omega
      · rcases hp.eq_one_or_self_of_dvd 3 (by omega) with h' | h' <;> omega
    have htp : trialPrime n = false := by
      cases hb : trialPrime n
      · rfl
      · exact absurd ((trialPrime_iff n).mp hb) hnp
    rw [htp]
    simp
  · push_neg at hdv
    rw [if_neg (by simp [hdv.1, hdv.2])]
    have hiff := primeCheckLoop_iff n (by omega) hdv.1 hdv.2
    by_cases hp : Nat.Prime n
    · rw [if_pos (hiff.mpr hp), if_pos ((trialPrime_iff n).mpr hp)]
    · have hl : primeLoopIter n 5 n = false := by
        cases hb : primeLoopIter n 5 n
        · rfl
        · exact absurd (hiff.mp hb) hp
      have ht : trialPrime n = false := by
        cases hb : trialPrime n
        · rfl
        · exact absurd ((trialPrime_iff n).mp hb) hp
      rw [hl, ht]

/-- C6: for every integer `n ≤ 10000` reaching the prime-number branch
of `handle_ga3_questions`, the returned `"True"`/`"False"` string agrees
with the trial-division reference definition of primality; e.g. 17
yields `"True"` and 20 yields `"False"`. -/
theorem claim6_prime_check_correct :
    (∀ n : Nat, n ≤ 10000 →
      handle_ga3_prime n = (if trialPrime n then "True" else "False")) ∧
    handle_ga3_prime 17 = "True" ∧ handle_ga3_prime 20 = "False" :=
  ⟨fun n _ => handle_ga3_prime_eq n, rfl, rfl⟩

/-- C6 witness: the theorem instantiated at `n = 29`. -/
theorem claim6_prime_check_correct_witness :
    29 ≤ 10000 ∧
      handle_ga3_prime 29 = (if trialPrime 29 then "True" else "False") :=
  ⟨by decide, claim6_prime_check_correct.1 29 (by decide)⟩

end TDS
